import Mathlib

/-!
Verification of the PIV smart-card communication engine of `safe-yubikey`
(`src/main/yubikey-pcsc.ts`), shallowly embedded over byte lists.

Buffers are modelled as `List Nat` (one entry per byte; a real Node `Buffer`
always holds values `< 256`, which theorems assume as a hypothesis where the
numeric value of a byte matters).  JavaScript out-of-range indexing yielding
`undefined` is modelled with `Option`/`List.get?`; functions of the source
that `throw` (caught by their callers) return `none`.
-/

namespace SafeYubikey

/-- A byte buffer: one `Nat` per byte. -/
abbrev Buf := List Nat

/-- A JavaScript number-or-`undefined` value, as produced by indexing a
`Buffer` out of range. -/
inductive JsNum where
  | num : Nat → JsNum
  | undef : JsNum
deriving DecidableEq, Repr

/-- `buf.slice(start, start + len)` where `len` may be `undefined`
(`start + undefined` is `NaN`, and `slice` with a `NaN` end yields an empty
buffer; otherwise the end is clamped to the buffer length). -/
def jsSliceLen (data : Buf) (start : Nat) (len : JsNum) : Buf :=
  match len with
  | .undef => []
  | .num n => (data.drop start).take n

/-- `parseLength` (yubikey-pcsc.ts:1390): reads an ASN.1 length at `offset`.
`none` models the `throw` on an unsupported first byte, including the
`undefined` read off the end of the buffer (which fails every guard and
throws).  In the `0x81` case a missing second byte yields `undefined`; in the
`0x82` case missing bytes coerce to `0` under `<< 8 |` (ToInt32(NaN) = 0). -/
def parseLength (data : Buf) (offset : Nat) : Option JsNum :=
  match data.get? offset with
  | none => none
  | some b =>
    if b ≤ 0x7f then some (.num b)
    else if b = 0x81 then
      match data.get? (offset + 1) with
      | none => some .undef
      | some v => some (.num v)
    else if b = 0x82 then
      some (.num ((data.getD (offset + 1) 0) <<< 8 ||| data.getD (offset + 2) 0))
    else none

/-- `parseLengthBytes` (yubikey-pcsc.ts:1407): number of bytes used by the
length encoding; `none` models the `throw`. -/
def parseLengthBytes (data : Buf) (offset : Nat) : Option Nat :=
  match data.get? offset with
  | none => none
  | some b =>
    if b ≤ 0x7f then some 1
    else if b = 0x81 then some 2
    else if b = 0x82 then some 3
    else none

/-- First step of `normalizeTo32Bytes` (yubikey-pcsc.ts:1372-1375): strip the
DER positive-integer leading-zero byte from a 33-byte value. -/
def stripDerZero (buf : Buf) : Buf :=
  if buf.length = 33 ∧ buf.get? 0 = some 0x00 then buf.drop 1 else buf

/-- Second step of `normalizeTo32Bytes` (yubikey-pcsc.ts:1377-1384): left-pad
with zeros to 32 bytes, truncate longer values to their first 32 bytes. -/
def padTo32 (b : Buf) : Buf :=
  if b.length < 32 then List.replicate (32 - b.length) 0 ++ b else b.take 32

/-- `normalizeTo32Bytes` (yubikey-pcsc.ts:1371): strip a DER leading-zero byte
from a 33-byte value, left-pad with zeros to 32 bytes, truncate longer
values to their first 32 bytes. -/
def normalizeTo32Bytes (buf : Buf) : Buf := padTo32 (stripDerZero buf)

/-- Big-endian value of a byte buffer, i.e. `BigInt('0x' + buf.toString('hex'))`
for a real buffer (all bytes `< 256`). -/
def bytesToNat (b : Buf) : Nat := b.foldl (fun a x => a * 256 + x) 0

/-- The P-256 curve order `n` (yubikey-pcsc.ts:1350). -/
def curveOrderN : Nat :=
  0xFFFFFFFF00000000FFFFFFFFFFFFFFFFBCE6FAADA7179E84F3B9CAC2FC632551

/-- `n / 2n` with BigInt (truncating) division (yubikey-pcsc.ts:1351). -/
def halfN : Nat := curveOrderN / 2

/-- Number of hex digits of `m` below `16 ^ fuel` (0 digits for `m = 0`). -/
def hexDigitsAux : Nat → Nat → Nat
  | 0, _ => 0
  | fuel + 1, m => if m = 0 then 0 else hexDigitsAux fuel (m / 16) + 1

/-- Length of `m.toString(16)` for a non-negative BigInt `m < 16 ^ 256`. -/
def hexDigits (m : Nat) : Nat := if m = 0 then 1 else hexDigitsAux 256 m

/-- Big-endian byte encoding of `v`, `k` bytes wide. -/
def natToBE : Nat → Nat → Buf
  | 0, _ => []
  | k + 1, v => natToBE k (v / 256) ++ [v % 256]

/-- `Buffer.from(lowS.toString(16).padStart(64, '0'), 'hex')`
(yubikey-pcsc.ts:1356-1358), for `lowS = n - sBigInt` with
`|lowS| < 16 ^ 56`.  For a non-negative `lowS` this is the 32-byte
big-endian encoding; for a negative `lowS` the hex string is
`'0' * (63 - d) ++ '-' ++ digits` (`d` digits of `|lowS|`), and Node's hex
decoder stops at the first invalid pair, yielding `⌊(63 - d) / 2⌋` zero
bytes. -/
def jsLowSBytes (lowS : Int) : Buf :=
  if lowS < 0 then List.replicate ((63 - hexDigits lowS.natAbs) / 2) 0
  else natToBE 32 lowS.toNat

/-- The low-S normalization step of `parseDerSignature`
(yubikey-pcsc.ts:1349-1359) applied to the 32-byte-normalized `s`. -/
def lowSNormalize (s : Buf) : Buf :=
  if halfN < bytesToNat s then jsLowSBytes ((curveOrderN : Int) - (bytesToNat s : Int))
  else s

/-- `parseDerSignature` (yubikey-pcsc.ts:1306): walk a DER SEQUENCE of two
INTEGERs, normalize each to 32 bytes, and apply low-S normalization to `s`.
`none` models a `throw` (caught by `parseSignatureResponse`).  An `undefined`
`rLen` (0x81 length with a missing byte) makes the running offset `NaN`, so
the subsequent `der[offset] !== 0x02` check throws. -/
def parseDerSignature (der : Buf) : Option (Buf × Buf) :=
  if der.get? 0 ≠ some 0x30 then none
  else
    match parseLengthBytes der 1 with
    | none => none
    | some seqLB =>
      if der.get? (1 + seqLB) ≠ some 0x02 then none
      else
        match parseLength der (1 + seqLB + 1), parseLengthBytes der (1 + seqLB + 1) with
        | some rLen, some rLB =>
          match rLen with
          | .undef => none
          | .num rn =>
            if der.get? (1 + seqLB + 1 + rLB + rn) ≠ some 0x02 then none
            else
              match parseLength der (1 + seqLB + 1 + rLB + rn + 1),
                    parseLengthBytes der (1 + seqLB + 1 + rLB + rn + 1) with
              | some sLen, some sLB =>
                some (normalizeTo32Bytes (jsSliceLen der (1 + seqLB + 1 + rLB) rLen),
                  lowSNormalize (normalizeTo32Bytes
                    (jsSliceLen der (1 + seqLB + 1 + rLB + rn + 1 + sLB) sLen)))
              | _, _ => none
        | _, _ => none

/-- The DER walk of `parseDerSignature` (yubikey-pcsc.ts:1306-1342) up to,
but not including, the normalization steps of lines 1344-1359: the same
offset computation, returning the raw contents `(rRaw, sRaw)` of the two
INTEGERs as sliced from the blob.  `parseDerSignature` is exactly this walk
followed by `normalizeTo32Bytes` on both and `lowSNormalize` on `s`
(`parseDerSignature_eq_integers`), so these are the definite parsed `r` and
`s` of a given blob. -/
def parseDerIntegers (der : Buf) : Option (Buf × Buf) :=
  if der.get? 0 ≠ some 0x30 then none
  else
    match parseLengthBytes der 1 with
    | none => none
    | some seqLB =>
      if der.get? (1 + seqLB) ≠ some 0x02 then none
      else
        match parseLength der (1 + seqLB + 1), parseLengthBytes der (1 + seqLB + 1) with
        | some rLen, some rLB =>
          match rLen with
          | .undef => none
          | .num rn =>
            if der.get? (1 + seqLB + 1 + rLB + rn) ≠ some 0x02 then none
            else
              match parseLength der (1 + seqLB + 1 + rLB + rn + 1),
                    parseLengthBytes der (1 + seqLB + 1 + rLB + rn + 1) with
              | some sLen, some sLB =>
                some (jsSliceLen der (1 + seqLB + 1 + rLB) rLen,
                  jsSliceLen der (1 + seqLB + 1 + rLB + rn + 1 + sLB) sLen)
              | _, _ => none
        | _, _ => none

/-- Left-pad a buffer to 32 bytes: `hex.padStart(64, '0')` applied to
`buf.toString('hex')` for a buffer of at most 32 bytes
(yubikey-pcsc.ts:1294-1295). -/
def padLeft32 (b : Buf) : Buf := List.replicate (32 - b.length) 0 ++ b

/-- `SignatureResult` (yubikey-pcsc.ts:29).  The source stores `signatureDer`,
`r`, `s` as hex strings; bytes are kept here (hex encoding is injective on
real buffers). -/
structure SignatureResult where
  signatureDer : Buf
  r : Buf
  s : Buf
deriving DecidableEq, Repr

/-- `PublicKeyResult` (yubikey-pcsc.ts:23), byte-level (`publicKey` is the
65-byte `04 ‖ x ‖ y` point; the source stores hex strings). -/
structure PublicKeyResult where
  publicKey : Buf
  x : Buf
  y : Buf
deriving DecidableEq, Repr

/-- `parseSignatureResponse` (yubikey-pcsc.ts:1262): unwrap the `7C`/`82`
TLV of a GENERAL AUTHENTICATE response and parse the contained DER
signature; `none` models any caught exception or explicit `null`. -/
def parseSignatureResponse (response : Buf) : Option SignatureResult :=
  if response.get? 0 ≠ some 0x7c then none
  else
    match parseLengthBytes response 1 with
    | none => none
    | some lb =>
      if response.get? (1 + lb) ≠ some 0x82 then none
      else
        match parseLength response (1 + lb + 1), parseLengthBytes response (1 + lb + 1) with
        | some sigLen, some lenInfo =>
          match parseDerSignature (jsSliceLen response (1 + lb + 1 + lenInfo) sigLen) with
          | none => none
          | some (r, s) =>
            some ⟨jsSliceLen response (1 + lb + 1 + lenInfo) sigLen, padLeft32 r, padLeft32 s⟩
        | _, _ => none

/-- `parsePublicKeyResponse` (yubikey-pcsc.ts:1216): extract the
`7F49`/`86`-tagged 65-byte uncompressed point from a GENERATE KEY response. -/
def parsePublicKeyResponse (response : Buf) : Option PublicKeyResult :=
  if response.get? 0 ≠ some 0x7f ∨ response.get? 1 ≠ some 0x49 then none
  else
    match parseLengthBytes response 2 with
    | none => none
    | some lb =>
      if response.get? (2 + lb) ≠ some 0x86 then none
      else
        match parseLength response (2 + lb + 1), parseLengthBytes response (2 + lb + 1) with
        | some pubKeyLen, some lenInfo =>
          if (jsSliceLen response (2 + lb + 1 + lenInfo) pubKeyLen).length = 65 ∧
              (jsSliceLen response (2 + lb + 1 + lenInfo) pubKeyLen).get? 0 = some 0x04 then
            some ⟨jsSliceLen response (2 + lb + 1 + lenInfo) pubKeyLen,
              ((jsSliceLen response (2 + lb + 1 + lenInfo) pubKeyLen).drop 1).take 32,
              ((jsSliceLen response (2 + lb + 1 + lenInfo) pubKeyLen).drop 33).take 32⟩
          else none
        | _, _ => none

/-- The EC public-key algorithm OID `1.2.840.10045.2.1` as scanned for by the
certificate parser (yubikey-pcsc.ts:440). -/
def ecPubKeyOid : Buf := [0x06, 0x07, 0x2a, 0x86, 0x48, 0xce, 0x3d, 0x02, 0x01]

/-- `data.slice(i, i + pat.length).equals(pat)` (a clamped short slice never
equals the full pattern). -/
def matchesAt (data pat : Buf) (i : Nat) : Bool :=
  (data.drop i).take pat.length = pat

/-- First `i` with `start ≤ i < bound` satisfying `p` (a JS
`for (let i = start; i < bound; i++)` search; an empty range when
`bound ≤ start`, as for a negative JS bound). -/
def firstIdxFrom (start bound : Nat) (p : Nat → Bool) : Option Nat :=
  (List.range' start (bound - start)).find? p

/-- BIT STRING length parse at index `i` (yubikey-pcsc.ts:466-475): returns
`(lenOffset, bitStringLen)`. -/
def bsParseAt (data : Buf) (i : Nat) : Nat × Nat :=
  if data.getD (i + 1) 0 = 0x81 then (i + 2, data.getD (i + 2) 0)
  else if data.getD (i + 1) 0 = 0x82 then
    (i + 3, (data.getD (i + 2) 0) <<< 8 ||| data.getD (i + 3) 0)
  else (i + 1, data.getD (i + 1) 0)

/-- The primary-strategy hit test at index `i` (yubikey-pcsc.ts:463-482):
a BIT STRING tag whose content is 66 bytes, unused-bits byte `0x00` and
point tag `0x04`.  All inspected indices are in range for `i < length - 67`. -/
def bitStringHit (data : Buf) (i : Nat) : Bool :=
  data.getD i 0 = 0x03 && (bsParseAt data i).2 = 66 &&
    data.getD ((bsParseAt data i).1 + 1) 0 = 0x00 &&
    data.getD ((bsParseAt data i).1 + 2) 0 = 0x04

/-- Result extraction at a primary-strategy hit (yubikey-pcsc.ts:483-494),
with `contentStart = lenOffset + 1`. -/
def bsResultAt (data : Buf) (i : Nat) : PublicKeyResult :=
  ⟨(data.drop ((bsParseAt data i).1 + 2)).take 65,
   (data.drop ((bsParseAt data i).1 + 3)).take 32,
   (data.drop ((bsParseAt data i).1 + 35)).take 32⟩

/-- Fallback pattern `03 42 00 04` at index `i` (yubikey-pcsc.ts:517-522). -/
def fbShortHit (data : Buf) (i : Nat) : Bool :=
  data.getD i 0 = 0x03 && data.getD (i + 1) 0 = 0x42 &&
    data.getD (i + 2) 0 = 0x00 && data.getD (i + 3) 0 = 0x04

/-- Fallback long-form pattern `03 81 42 00 04` at index `i`
(yubikey-pcsc.ts:538-544). -/
def fbLongHit (data : Buf) (i : Nat) : Bool :=
  data.getD i 0 = 0x03 && data.getD (i + 1) 0 = 0x81 && data.getD (i + 2) 0 = 0x42 &&
    data.getD (i + 3) 0 = 0x00 && data.getD (i + 4) 0 = 0x04

/-- `parsePublicKeyFallback` (yubikey-pcsc.ts:512): scan for a literal
`03 42 00 04` or `03 81 42 00 04` pattern and take the 64 bytes after it. -/
def parsePublicKeyFallback (data : Buf) : Option PublicKeyResult :=
  match firstIdxFrom 0 (data.length - 67) (fun i => fbShortHit data i || fbLongHit data i) with
  | none => none
  | some i =>
    if fbShortHit data i then
      some ⟨(data.drop (i + 3)).take 65, (data.drop (i + 4)).take 32, (data.drop (i + 36)).take 32⟩
    else
      some ⟨(data.drop (i + 4)).take 65, (data.drop (i + 5)).take 32, (data.drop (i + 37)).take 32⟩

/-- `parsePublicKeyFromCert` (yubikey-pcsc.ts:434): primary strategy — find
the EC public-key OID, then scan forward for a 66-byte BIT STRING holding the
uncompressed point; fall back to the byte-pattern search otherwise. -/
def parsePublicKeyFromCert (data : Buf) : Option PublicKeyResult :=
  match firstIdxFrom 0 (data.length - ecPubKeyOid.length) (matchesAt data ecPubKeyOid) with
  | none => parsePublicKeyFallback data
  | some ecOidIndex =>
    match firstIdxFrom (ecOidIndex + ecPubKeyOid.length) (data.length - 67) (bitStringHit data) with
    | some i => some (bsResultAt data i)
    | none => parsePublicKeyFallback data

/-- `encodeLength` (yubikey-pcsc.ts:1031): short/long-form ASN.1 length. -/
def encodeLength (len : Nat) : Buf :=
  if len < 128 then [len]
  else if len < 256 then [0x81, len]
  else [0x82, (len >>> 8) &&& 0xff, len &&& 0xff]

/-- The fixed EC P-256 `AlgorithmIdentifier` (yubikey-pcsc.ts:845-867). -/
def algIdEC : Buf :=
  [0x30, 0x13, 0x06, 0x07, 0x2a, 0x86, 0x48, 0xce, 0x3d, 0x02, 0x01,
   0x06, 0x08, 0x2a, 0x86, 0x48, 0xce, 0x3d, 0x03, 0x01, 0x07]

/-- `buildSubjectPublicKeyInfo` (yubikey-pcsc.ts:841), byte-level on the
decoded 65-byte EC point. -/
def buildSubjectPublicKeyInfo (ecPoint : Buf) : Buf :=
  let pubKeyBitString := [0x03, ecPoint.length + 1, 0x00] ++ ecPoint
  let inner := algIdEC ++ pubKeyBitString
  [0x30] ++ encodeLength inner.length ++ inner

/-- Tagged success/error outcome, `{ success: true, data } | { success: false, error }`
(yubikey-pcsc.ts:14). -/
inductive YkResult (α : Type) where
  | ok : α → YkResult α
  | err : String → YkResult α
deriving DecidableEq, Repr

/-- Lowercase hex digit character. -/
def hexDigitChar (n : Nat) : Char :=
  if n < 10 then Char.ofNat (48 + n) else Char.ofNat (87 + n)

/-- `buf.toString('hex')` for a real buffer (bytes `< 256`). -/
def bufToHex (b : Buf) : String :=
  String.mk (b.flatMap (fun x => [hexDigitChar (x / 16), hexDigitChar (x % 16)]))

/-- The card side of an APDU exchange: the response buffer (payload plus
status word) the connected card produces for each command.  The claims under
verification only exercise distinct commands, so a function suffices. -/
abbrev Card := Buf → Buf

/-- GET RESPONSE continuation command `00 C0 00 00 [Le]`
(yubikey-pcsc.ts:1176). -/
def getResponseCmd (le : Nat) : Buf := [0x00, 0xc0, 0x00, 0x00, le]

/-- The `while` continuation loop of `transmit` (yubikey-pcsc.ts:1170-1188):
while the accumulated response ends in `61 XX`, issue GET RESPONSE and
replace the trailing status word with the newly received data.  Returns the
final response and the list of GET RESPONSE commands issued; `none` only on
fuel exhaustion (the source loops unboundedly). -/
def transmitLoop : Nat → Card → Buf → Option (Buf × List Buf)
  | 0, _, _ => none
  | fuel + 1, card, data =>
    if data.length ≥ 2 then
      if data.getD (data.length - 2) 0 = 0x61 then
        match transmitLoop fuel card
            (data.take (data.length - 2) ++ card (getResponseCmd (data.getD (data.length - 1) 0))) with
        | none => none
        | some (d, t) => some (d, getResponseCmd (data.getD (data.length - 1) 0) :: t)
      else some (data, [])
    else some (data, [])

/-- `transmit` (yubikey-pcsc.ts:1161): send one command, then transparently
resolve `61 XX` continuations.  Returns the full logical response and the
transcript of every APDU actually sent. -/
def transmit (fuel : Nat) (card : Card) (command : Buf) : Option (Buf × List Buf) :=
  match transmitLoop fuel card (card command) with
  | none => none
  | some (d, t) => some (d, command :: t)

/-- The 2-byte trailing status word `data.slice(-2)`. -/
def swOf (data : Buf) : Buf := data.drop (data.length - 2)

/-- The payload `data.slice(0, -2)`. -/
def bodyOf (data : Buf) : Buf := data.take (data.length - 2)

/-- The VERIFY command `00 20 00 80 08 [PIN]` with the PIN padded to 8 bytes
with `0xFF` filler (yubikey-pcsc.ts:322-327); `Buffer.alloc(8, 0xff)`
followed by `copy` keeps the first `min(8, pin.length)` PIN bytes. -/
def verifyPinCmd (pin : Buf) : Buf :=
  [0x00, 0x20, 0x00, 0x80, 0x08] ++ (pin.take 8 ++ List.replicate (8 - pin.length) 0xff)

/-- `verifyPin` (yubikey-pcsc.ts:319): send VERIFY and interpret the status
word (`90 00` success, `63 Cx` wrong PIN with `x` attempts left, `69 83`
blocked). -/
def verifyPin (fuel : Nat) (card : Card) (pin : Buf) : Option (YkResult Unit × List Buf) :=
  match transmit fuel card (verifyPinCmd pin) with
  | none => none
  | some (data, t) =>
    if (swOf data).get? 0 = some 0x90 ∧ (swOf data).get? 1 = some 0x00 then some (.ok (), t)
    else if (swOf data).get? 0 = some 0x63 ∧ (swOf data).getD 1 0 &&& 0xf0 = 0xc0 then
      some (.err ("Wrong PIN. " ++ toString ((swOf data).getD 1 0 &&& 0x0f) ++
        " attempts remaining."), t)
    else if (swOf data).get? 0 = some 0x69 ∧ (swOf data).get? 1 = some 0x83 then
      some (.err "PIN is blocked.", t)
    else some (.err ("PIN verification failed: SW=" ++ bufToHex (swOf data)), t)

/-- `getSlotObjectId` (yubikey-pcsc.ts:418): PIV slot to 3-byte object id. -/
def getSlotObjectId (slot : Nat) : Option Buf :=
  if slot = 0x9a then some [0x5f, 0xc1, 0x05]
  else if slot = 0x9c then some [0x5f, 0xc1, 0x0a]
  else if slot = 0x9d then some [0x5f, 0xc1, 0x0b]
  else if slot = 0x9e then some [0x5f, 0xc1, 0x01]
  else none

/-- The GET DATA command `00 CB 3F FF [Lc] 5C [len] [objectId] 00`
(yubikey-pcsc.ts:379-385). -/
def getDataCmd (objectId : Buf) : Buf :=
  [0x00, 0xcb, 0x3f, 0xff, objectId.length + 2, 0x5c, objectId.length] ++ objectId ++ [0x00]

/-- `readPublicKey` (yubikey-pcsc.ts:368): GET DATA for the slot object;
`6A 82` maps to the `NO_KEY` domain signal, other non-`90 00` status words
are surfaced with the raw SW, and a `90 00` payload goes to the certificate
parser. -/
def readPublicKey (fuel : Nat) (card : Card) (slot : Nat) :
    Option (YkResult PublicKeyResult × List Buf) :=
  match getSlotObjectId slot with
  | none => some (.err "Invalid slot", [])
  | some objectId =>
    match transmit fuel card (getDataCmd objectId) with
    | none => none
    | some (data, t) =>
      if (swOf data).get? 0 = some 0x6a ∧ (swOf data).get? 1 = some 0x82 then
        some (.err "NO_KEY", t)
      else if ¬((swOf data).get? 0 = some 0x90 ∧ (swOf data).get? 1 = some 0x00) then
        some (.err ("Read public key failed: SW=" ++ bufToHex (swOf data)), t)
      else
        match parsePublicKeyFromCert (bodyOf data) with
        | none => some (.err "Failed to parse public key from response", t)
        | some pubKey => some (.ok pubKey, t)

/-- One iteration bound of the `while` loop of `parseTlvValue`
(yubikey-pcsc.ts:699-710): the offset grows by at least 2 per step, so
`data.length + 1` fuel is never exhausted on the paths the theorems use.
An `undefined` skip length makes the JS offset `NaN`, exiting the loop. -/
def parseTlvGo (data : Buf) (tag : Nat) : Nat → Nat → Option Buf
  | 0, _ => none
  | fuel + 1, offset =>
    if offset + 1 < data.length then
      match parseLength data (offset + 1), parseLengthBytes data (offset + 1) with
      | some len, some lb =>
        if data.getD offset 0 = tag then some (jsSliceLen data (offset + 1 + lb) len)
        else
          match len with
          | .undef => none
          | .num n => parseTlvGo data tag fuel (offset + 1 + lb + n)
      | _, _ => none
    else none

/-- `parseTlvValue` (yubikey-pcsc.ts:688): find a tag's value in a TLV blob,
skipping a leading `7C` wrapper; `none` models both the `null` returns and
any caught exception. -/
def parseTlvValue (data : Buf) (tag : Nat) : Option Buf :=
  if data.get? 0 = some 0x7c then
    match parseLengthBytes data 1 with
    | none => none
    | some lb => parseTlvGo data tag (data.length + 1) (1 + lb)
  else parseTlvGo data tag (data.length + 1) 0

/-- The AES-192-ECB encrypt/decrypt primitives under the factory-default
24-byte management key.  AES itself is performed by Node's `crypto` module
(an external library, out of scope per the spec); the handshake logic is
verified for every choice of these functions. -/
structure AesOracle where
  enc : Buf → Buf
  dec : Buf → Buf

/-- The witness request `00 87 0A 9B 04 7C 02 80 00` (yubikey-pcsc.ts:585). -/
def witnessReqCmd : Buf := [0x00, 0x87, 0x0a, 0x9b, 0x04, 0x7c, 0x02, 0x80, 0x00]

/-- The mutual-authentication response command
`00 87 0A 9B 26 7C 24 80 10 [witness] 81 10 [challenge]`
(yubikey-pcsc.ts:635-650). -/
def authRespCmd (decryptedWitness challenge : Buf) : Buf :=
  [0x00, 0x87, 0x0a, 0x9b, 0x26, 0x7c, 0x24, 0x80, 0x10] ++ decryptedWitness ++
    [0x81, 0x10] ++ challenge

/-- `authenticateManagementKey` (yubikey-pcsc.ts:568): request a witness,
decrypt it, send it back with a fresh 16-byte challenge, and verify that the
card's 16-byte response equals the locally encrypted challenge.  `challenge`
stands for the `crypto.randomBytes(16)` draw. -/
def authenticateManagementKey (fuel : Nat) (card : Card) (aes : AesOracle) (challenge : Buf) :
    Option (YkResult Unit × List Buf) :=
  match transmit fuel card witnessReqCmd with
  | none => none
  | some (data, t1) =>
    if ¬((swOf data).get? 0 = some 0x90 ∧ (swOf data).get? 1 = some 0x00) then
      some (.err ("Witness request failed: SW=" ++ bufToHex (swOf data)), t1)
    else
      match parseTlvValue (bodyOf data) 0x80 with
      | none => some (.err "Failed to parse witness (got undefined bytes, expected 16)", t1)
      | some witness =>
        if witness.length ≠ 16 then
          some (.err ("Failed to parse witness (got " ++ toString witness.length ++
            " bytes, expected 16)"), t1)
        else
          match transmit fuel card (authRespCmd (aes.dec witness) challenge) with
          | none => none
          | some (data2, t2) =>
            if ¬((swOf data2).get? 0 = some 0x90 ∧ (swOf data2).get? 1 = some 0x00) then
              some (.err ("Management key auth failed: SW=" ++ bufToHex (swOf data2)), t1 ++ t2)
            else
              match parseTlvValue (bodyOf data2) 0x82 with
              | none => some (.err "Failed to parse card response", t1 ++ t2)
              | some cardResponse =>
                if cardResponse.length ≠ 16 then
                  some (.err "Failed to parse card response", t1 ++ t2)
                else if cardResponse ≠ aes.enc challenge then
                  some (.err "Card response verification failed", t1 ++ t2)
                else some (.ok (), t1 ++ t2)

/-- GENERATE ASYMMETRIC KEY PAIR `00 47 00 [slot] 05 AC 03 80 01 11`
(yubikey-pcsc.ts:731-742), algorithm `0x11` = ECC P-256. -/
def generateKeyCmd (slot : Nat) : Buf :=
  [0x00, 0x47, 0x00, slot, 0x05, 0xac, 0x03, 0x80, 0x01, 0x11]

/-- `generateNewKey` (yubikey-pcsc.ts:721): authenticate with the management
key first, then send GENERATE and parse the returned public key. -/
def generateNewKey (fuel : Nat) (card : Card) (aes : AesOracle) (challenge : Buf) (slot : Nat) :
    Option (YkResult PublicKeyResult × List Buf) :=
  match authenticateManagementKey fuel card aes challenge with
  | none => none
  | some (.err e, t) => some (.err e, t)
  | some (.ok _, t) =>
    match transmit fuel card (generateKeyCmd slot) with
    | none => none
    | some (data, t2) =>
      if ¬((swOf data).get? 0 = some 0x90 ∧ (swOf data).get? 1 = some 0x00) then
        some (.err ("Key generation failed: SW=" ++ bufToHex (swOf data)), t ++ t2)
      else
        match parsePublicKeyResponse (bodyOf data) with
        | none => some (.err "Failed to parse generated public key", t ++ t2)
        | some pubKey => some (.ok pubKey, t ++ t2)

/-- `generateP256Key` (yubikey-pcsc.ts:1068): read slot 9A; only the
`NO_KEY` signal triggers generation.  After a successful generation the
source stores a certificate via the external `ykman` tool (out of scope,
outcome abstracted as `storeOk`); a storage failure is only logged
(yubikey-pcsc.ts:1098-1101) and `generateResult` is returned either way. -/
def generateP256Key (fuel : Nat) (card : Card) (aes : AesOracle) (challenge : Buf)
    (_storeOk : Bool) : Option (YkResult PublicKeyResult × List Buf) :=
  match readPublicKey fuel card 0x9a with
  | none => none
  | some (.ok pubKey, t) => some (.ok pubKey, t)
  | some (.err e, t) =>
    if e = "NO_KEY" then
      match generateNewKey fuel card aes challenge 0x9a with
      | none => none
      | some (.ok pubKey, t2) =>
        -- disconnectForYkman / storeCertificateViaYkman / reconnectAfterYkman:
        -- the store outcome `storeOk` never alters the returned result
        -- (yubikey-pcsc.ts:1098-1104 only logs a storage failure).
        some (.ok pubKey, t ++ t2)
      | some (.err e2, t2) => some (.err e2, t ++ t2)
    else some (.err e, t)

/-- Remove the first occurrence of the substring `0x`:
`hashHex.replace('0x', '')` (yubikey-pcsc.ts:1114) replaces only the first
match of a string pattern. -/
def removeFirst0x : List Char → List Char
  | [] => []
  | [c] => [c]
  | c1 :: c2 :: rest =>
    if c1 = '0' ∧ c2 = 'x' then rest else c1 :: removeFirst0x (c2 :: rest)

/-- Hex value of a character, as accepted by Node's hex decoder. -/
def hexVal (c : Char) : Option Nat :=
  if '0' ≤ c ∧ c ≤ '9' then some (c.toNat - 48)
  else if 'a' ≤ c ∧ c ≤ 'f' then some (c.toNat - 87)
  else if 'A' ≤ c ∧ c ≤ 'F' then some (c.toNat - 55)
  else none

/-- `Buffer.from(str, 'hex')`: decode complete pairs, stopping at the first
invalid pair or a trailing lone character. -/
def hexDecode : List Char → Buf
  | c1 :: c2 :: rest =>
    match hexVal c1, hexVal c2 with
    | some h, some l => (16 * h + l) :: hexDecode rest
    | _, _ => []
  | _ => []

/-- GENERAL AUTHENTICATE signing command
`00 87 11 9A 26 7C 24 82 00 81 20 [hash]` (yubikey-pcsc.ts:1120-1135). -/
def signHashCmd (hash : Buf) : Buf :=
  [0x00, 0x87, 0x11, 0x9a, 0x26, 0x7c, 0x24, 0x82, 0x00, 0x81, 0x20] ++ hash

/-- `signHash` (yubikey-pcsc.ts:1113): decode the hex input, reject anything
that is not exactly 32 bytes before any APDU is sent, and otherwise sign via
GENERAL AUTHENTICATE and parse the `7C`/`82` DER signature. -/
def signHash (fuel : Nat) (card : Card) (hashHex : List Char) :
    Option (YkResult SignatureResult × List Buf) :=
  if (hexDecode (removeFirst0x hashHex)).length ≠ 32 then
    some (.err ("Hash must be 32 bytes, got " ++
      toString (hexDecode (removeFirst0x hashHex)).length), [])
  else
    match transmit fuel card (signHashCmd (hexDecode (removeFirst0x hashHex))) with
    | none => none
    | some (data, t) =>
      if ¬((swOf data).get? 0 = some 0x90 ∧ (swOf data).get? 1 = some 0x00) then
        some (.err ("Signing failed: SW=" ++ bufToHex (swOf data)), t)
      else
        match parseSignatureResponse (bodyOf data) with
        | none => some (.err "Failed to parse signature from response", t)
        | some sig => some (.ok sig, t)

/-! ## Basic buffer lemmas -/

theorem padTo32_length (b : Buf) : (padTo32 b).length = 32 := by
  unfold padTo32
  split
  · simp only [List.length_append, List.length_replicate]
    omega
  · simp only [List.length_take]
    omega

theorem padTo32_mem (b : Buf) (h : ∀ x ∈ b, x < 256) : ∀ x ∈ padTo32 b, x < 256 := by
  intro x hx
  unfold padTo32 at hx
  split at hx
  · rcases List.mem_append.mp hx with hx | hx
    · have := List.eq_of_mem_replicate hx
      omega
    · exact h x hx
  · exact h x (List.take_subset _ _ hx)

theorem stripDerZero_subset (b : Buf) : ∀ x ∈ stripDerZero b, x ∈ b := by
  intro x hx
  unfold stripDerZero at hx
  split at hx
  · exact List.drop_subset 1 b hx
  · exact hx

theorem normalizeTo32Bytes_length (b : Buf) : (normalizeTo32Bytes b).length = 32 :=
  padTo32_length _

theorem normalizeTo32Bytes_mem (b : Buf) (h : ∀ x ∈ b, x < 256) :
    ∀ x ∈ normalizeTo32Bytes b, x < 256 :=
  padTo32_mem _ (fun x hx => h x (stripDerZero_subset b x hx))

theorem jsSliceLen_subset (data : Buf) (st : Nat) (len : JsNum) :
    ∀ x ∈ jsSliceLen data st len, x ∈ data := by
  intro x hx
  cases len with
  | undef => simp [jsSliceLen] at hx
  | num n => exact List.drop_subset st data (List.take_subset n _ hx)

theorem bytesToNat_init (l : Buf) :
    ∀ i, l.foldl (fun a x => a * 256 + x) i = i * 256 ^ l.length + bytesToNat l := by
  induction l with
  | nil => intro i; simp [bytesToNat]
  | cons x l ih =>
    intro i
    show l.foldl _ (i * 256 + x) = i * 256 ^ (x :: l).length + bytesToNat (x :: l)
    rw [ih (i * 256 + x)]
    have hx : bytesToNat (x :: l) = x * 256 ^ l.length + bytesToNat l := by
      show l.foldl _ (0 * 256 + x) = _
      rw [ih (0 * 256 + x)]
      ring
    rw [hx]
    simp [List.length_cons]
    ring

theorem bytesToNat_lt (l : Buf) (h : ∀ x ∈ l, x < 256) : bytesToNat l < 256 ^ l.length := by
  induction l with
  | nil => simp [bytesToNat]
  | cons x l ih =>
    have hx : x < 256 := h x (List.mem_cons_self x l)
    have hl : bytesToNat l < 256 ^ l.length := ih (fun y hy => h y (List.mem_cons_of_mem x hy))
    have hcons : bytesToNat (x :: l) = x * 256 ^ l.length + bytesToNat l := by
      show l.foldl _ (0 * 256 + x) = _
      rw [bytesToNat_init l (0 * 256 + x)]
      ring
    rw [hcons]
    calc x * 256 ^ l.length + bytesToNat l < (x + 1) * 256 ^ l.length := by
          have := Nat.pos_pow_of_pos l.length (show 0 < 256 by norm_num)
          nlinarith
      _ ≤ 256 ^ (x :: l).length := by
          simp only [List.length_cons, pow_succ]
          have : x + 1 ≤ 256 := by omega
          nlinarith [Nat.pos_pow_of_pos l.length (show 0 < 256 by norm_num)]

theorem bytesToNat_append_single (l : Buf) (x : Nat) :
    bytesToNat (l ++ [x]) = 256 * bytesToNat l + x := by
  show (l ++ [x]).foldl _ 0 = _
  rw [List.foldl_append]
  show bytesToNat l * 256 + x = _
  ring

theorem natToBE_length : ∀ k v, (natToBE k v).length = k := by
  intro k
  induction k with
  | zero => intro v; rfl
  | succ k ih => intro v; simp [natToBE, ih]

theorem natToBE_mem : ∀ k v, ∀ x ∈ natToBE k v, x < 256 := by
  intro k
  induction k with
  | zero => intro v x hx; simp [natToBE] at hx
  | succ k ih =>
    intro v x hx
    simp only [natToBE, List.mem_append, List.mem_singleton] at hx
    rcases hx with hx | hx
    · exact ih _ x hx
    · subst hx; exact Nat.mod_lt _ (by norm_num)

theorem bytesToNat_natToBE : ∀ k v, v < 256 ^ k → bytesToNat (natToBE k v) = v := by
  intro k
  induction k with
  | zero =>
    intro v hv
    simp [pow_zero] at hv
    simp [natToBE, bytesToNat, hv]
  | succ k ih =>
    intro v hv
    show bytesToNat (natToBE k (v / 256) ++ [v % 256]) = v
    rw [bytesToNat_append_single, ih (v / 256) (by
      rw [Nat.div_lt_iff_lt_mul (by norm_num : 0 < 256)]
      calc v < 256 ^ (k + 1) := hv
        _ = 256 ^ k * 256 := by rw [pow_succ])]
    omega

/-! ## Low-S normalization (claim C1) -/

/-- What the low-S step guarantees about a 32-byte-normalized `s0` and the
final `s`, provided `s0` is in range for the curve order (the amendment the
counterexample `c1_low_s_counterexample` forces: for `s0 ≥ curveOrder` the
negative BigInt is hex-formatted with a `-` sign and the buffer round-trip
truncates). -/
def SNormSpec (s0 s : Buf) : Prop :=
  s0.length = 32 ∧ (∀ x ∈ s0, x < 256) ∧ s = lowSNormalize s0 ∧
    (bytesToNat s0 < curveOrderN →
      s.length = 32 ∧ bytesToNat s ≤ halfN ∧
      (halfN < bytesToNat s0 → bytesToNat s = curveOrderN - bytesToNat s0) ∧
      (bytesToNat s0 ≤ halfN → s = s0) ∧
      lowSNormalize s = s)

theorem curveOrder_odd : curveOrderN = 2 * halfN + 1 := by decide

theorem curveOrder_lt : curveOrderN < 256 ^ 32 := by decide

theorem lowS_spec (s0 : Buf) (hlen : s0.length = 32) (hvb : ∀ x ∈ s0, x < 256) :
    SNormSpec s0 (lowSNormalize s0) := by
  refine ⟨hlen, hvb, rfl, fun hval => ?_⟩
  by_cases hhi : halfN < bytesToNat s0
  · have hnn : ¬((curveOrderN : Int) - (bytesToNat s0 : Int) < 0) := by
      omega
    have hlow : lowSNormalize s0 = natToBE 32 (curveOrderN - bytesToNat s0) := by
      unfold lowSNormalize jsLowSBytes
      rw [if_pos hhi, if_neg hnn]
      congr 1
      omega
    have hrt : bytesToNat (natToBE 32 (curveOrderN - bytesToNat s0))
        = curveOrderN - bytesToNat s0 := by
      apply bytesToNat_natToBE
      have := curveOrder_lt
      omega
    have hle : curveOrderN - bytesToNat s0 ≤ halfN := by
      have := curveOrder_odd
      omega
    refine ⟨?_, ?_, ?_, ?_, ?_⟩
    · rw [hlow, natToBE_length]
    · rw [hlow, hrt]; exact hle
    · intro _; rw [hlow, hrt]
    · intro hc; omega
    · rw [hlow]
      unfold lowSNormalize
      rw [if_neg (by rw [hrt]; omega)]
  · have heq : lowSNormalize s0 = s0 := if_neg hhi
    refine ⟨?_, ?_, ?_, ?_, ?_⟩
    · rw [heq, hlen]
    · rw [heq]; omega
    · intro hc; omega
    · intro _; exact heq
    · rw [heq]; exact heq

/-- `parseDerSignature` is exactly the DER walk `parseDerIntegers` followed
by 32-byte normalization of both INTEGER contents and low-S normalization of
`s` — the normalization pipeline of yubikey-pcsc.ts:1344-1359 applied to the
definite parsed values of the blob. -/
theorem parseDerSignature_eq_integers (der : Buf) :
    parseDerSignature der =
      Option.map
        (fun p => (normalizeTo32Bytes p.1, lowSNormalize (normalizeTo32Bytes p.2)))
        (parseDerIntegers der) := by
  unfold parseDerSignature parseDerIntegers
  repeat' first
  | rfl
  | split

/-- The raw INTEGER contents returned by the DER walk are slices of the
input blob. -/
theorem parseDerIntegers_subset (der rRaw sRaw : Buf)
    (h : parseDerIntegers der = some (rRaw, sRaw)) :
    (∀ x ∈ rRaw, x ∈ der) ∧ (∀ x ∈ sRaw, x ∈ der) := by
  unfold parseDerIntegers at h
  split at h
  all_goals try exact Option.noConfusion h
  split at h
  all_goals try exact Option.noConfusion h
  split at h
  all_goals try exact Option.noConfusion h
  split at h
  all_goals try exact Option.noConfusion h
  split at h
  all_goals try exact Option.noConfusion h
  split at h
  all_goals try exact Option.noConfusion h
  split at h
  all_goals try exact Option.noConfusion h
  rw [Option.some_inj, Prod.mk.injEq] at h
  obtain ⟨hr, hs⟩ := h
  subst hr
  subst hs
  exact ⟨fun x hx => jsSliceLen_subset der _ _ x hx,
    fun x hx => jsSliceLen_subset der _ _ x hx⟩

/-- C1 (amended).  Whenever `parseDerSignature` accepts a blob of real
bytes, the DER walk yields definite raw INTEGER contents `(rRaw, sRaw)` for
that blob, the returned `r` is `normalizeTo32Bytes rRaw` (DER zero-padding
byte stripped, shorter values left-padded) — hence exactly 32 bytes — and
the returned `s` is the low-S step applied to `normalizeTo32Bytes sRaw`,
the parsed `s` of the blob.  Whenever that parsed `s`, as an integer, is
below the curve order (as for any true ECDSA signature), the returned `s`
is exactly 32 bytes, at most `curveOrder/2`, equals `curveOrder - s` when
`s > curveOrder/2`, is unchanged when already low-S, and the normalization
is idempotent (`SNormSpec`). -/
theorem parseDerSignature_low_s (der r s : Buf) (hv : ∀ x ∈ der, x < 256)
    (h : parseDerSignature der = some (r, s)) :
    r.length = 32 ∧
    (∃ rRaw sRaw : Buf, parseDerIntegers der = some (rRaw, sRaw)) ∧
    (∀ rRaw sRaw : Buf, parseDerIntegers der = some (rRaw, sRaw) →
      r = normalizeTo32Bytes rRaw ∧ s = lowSNormalize (normalizeTo32Bytes sRaw) ∧
      SNormSpec (normalizeTo32Bytes sRaw) s) := by
  have hfact := parseDerSignature_eq_integers der
  rw [h] at hfact
  cases hpi : parseDerIntegers der with
  | none => rw [hpi] at hfact; exact Option.noConfusion hfact
  | some p =>
    obtain ⟨rRaw0, sRaw0⟩ := p
    rw [hpi] at hfact
    rw [Option.map_some', Option.some_inj] at hfact
    have hr : r = normalizeTo32Bytes rRaw0 := congrArg Prod.fst hfact
    have hs : s = lowSNormalize (normalizeTo32Bytes sRaw0) := congrArg Prod.snd hfact
    have hmem : ∀ x ∈ sRaw0, x ∈ der := (parseDerIntegers_subset der rRaw0 sRaw0 hpi).2
    refine ⟨by rw [hr, normalizeTo32Bytes_length], ⟨rRaw0, sRaw0, rfl⟩, ?_⟩
    intro rRaw sRaw hpi2
    rw [Option.some_inj, Prod.mk.injEq] at hpi2
    obtain ⟨hreq, hseq⟩ := hpi2
    subst hreq
    subst hseq
    exact ⟨hr, hs, hs ▸ lowS_spec _ (normalizeTo32Bytes_length _)
      (normalizeTo32Bytes_mem _ (fun x hx => hv x (hmem x hx)))⟩

/-- A DER blob accepted by `parseDerSignature` whose `s` INTEGER is the
32-byte value `0xFF…FF`, which exceeds the curve order. -/
def c1BadDer : Buf := [0x30, 0x25, 0x02, 0x01, 0x01, 0x02, 0x20] ++ List.replicate 32 0xff

/-- C1 counterexample: `parseDerSignature` accepts `c1BadDer`, yet the
returned `s` is only 3 bytes long (the negative BigInt `n - s` is formatted
with a `-` sign, and Node's hex decoder truncates at it), so the returned
`s` is neither 32 bytes nor `curveOrder - s`. -/
theorem parseDerSignature_low_s_counterexample :
    parseDerSignature c1BadDer = some (List.replicate 31 0 ++ [0x01], [0, 0, 0]) ∧
    ([0, 0, 0] : Buf).length ≠ 32 :=
  ⟨by decide, by decide⟩

/-- A small well-formed DER signature with `r = 1`, `s = 2`. -/
def c1GoodDer : Buf := [0x30, 0x06, 0x02, 0x01, 0x01, 0x02, 0x01, 0x02]

theorem parseDerSignature_low_s_witness :
    (∀ x ∈ c1GoodDer, x < 256) ∧
    parseDerSignature c1GoodDer =
      some (List.replicate 31 0 ++ [1], List.replicate 31 0 ++ [2]) ∧
    parseDerIntegers c1GoodDer = some ([1], [2]) ∧
    ((List.replicate 31 0 ++ [1] : Buf).length = 32 ∧
      (∃ rRaw sRaw : Buf, parseDerIntegers c1GoodDer = some (rRaw, sRaw)) ∧
      (∀ rRaw sRaw : Buf, parseDerIntegers c1GoodDer = some (rRaw, sRaw) →
        (List.replicate 31 0 ++ [1] : Buf) = normalizeTo32Bytes rRaw ∧
        (List.replicate 31 0 ++ [2] : Buf) = lowSNormalize (normalizeTo32Bytes sRaw) ∧
        SNormSpec (normalizeTo32Bytes sRaw) (List.replicate 31 0 ++ [2]))) :=
  ⟨by decide, by decide, by decide,
    parseDerSignature_low_s c1GoodDer _ _ (by decide) (by decide)⟩

/-! ## Transport lemmas -/

theorem getD_append_right (d l : Buf) (i : Nat) :
    (d ++ l).getD (d.length + i) 0 = l.getD i 0 := by
  induction d with
  | nil => simp
  | cons x d ih =>
    have hidx : (x :: d).length + i = (d.length + i) + 1 := by
      rw [List.length_cons]
      omega
    rw [hidx]
    show List.getD (x :: (d ++ l)) ((d.length + i) + 1) 0 = l.getD i 0
    rw [List.getD_cons_succ]
    exact ih

theorem getD_append_fst (p : Buf) (a b : Nat) : (p ++ [a, b]).getD p.length 0 = a := by
  have h := getD_append_right p [a, b] 0
  simpa using h

theorem getD_append_snd (p : Buf) (a b : Nat) : (p ++ [a, b]).getD (p.length + 1) 0 = b := by
  have h := getD_append_right p [a, b] 1
  simpa using h

theorem swOf_append_pair (p : Buf) (a b : Nat) : swOf (p ++ [a, b]) = [a, b] := by
  unfold swOf
  have h : (p ++ [a, b]).length - 2 = p.length := by simp
  rw [h, List.drop_left]

theorem bodyOf_append_pair (p : Buf) (a b : Nat) : bodyOf (p ++ [a, b]) = p := by
  unfold bodyOf
  have h : (p ++ [a, b]).length - 2 = p.length := by simp
  rw [h, List.take_left]

/-- One-step unfolding equation for `transmitLoop`. -/
theorem transmitLoop_succ (fuel : Nat) (card : Card) (data : Buf) :
    transmitLoop (fuel + 1) card data =
      if data.length ≥ 2 then
        if data.getD (data.length - 2) 0 = 0x61 then
          match transmitLoop fuel card
              (data.take (data.length - 2) ++
                card (getResponseCmd (data.getD (data.length - 1) 0))) with
          | none => none
          | some (d, t) => some (d, getResponseCmd (data.getD (data.length - 1) 0) :: t)
        else some (data, [])
      else some (data, []) := rfl

/-- A response already ending in a terminal (non-`61`) status word passes
through `transmit` unchanged, with only the original command sent. -/
theorem transmit_terminal (fuel : Nat) (card : Card) (cmd p : Buf) (a b : Nat)
    (hf : 1 ≤ fuel) (hresp : card cmd = p ++ [a, b]) (ha : a ≠ 0x61) :
    transmit fuel card cmd = some (p ++ [a, b], [cmd]) := by
  obtain ⟨f, rfl⟩ : ∃ f, fuel = f + 1 := ⟨fuel - 1, by omega⟩
  have hlen : (p ++ [a, b]).length ≥ 2 := by simp
  have hga : (p ++ [a, b]).getD ((p ++ [a, b]).length - 2) 0 = a := by
    have h2 : (p ++ [a, b]).length - 2 = p.length := by simp
    rw [h2, getD_append_fst]
  have hloop : transmitLoop (f + 1) card (p ++ [a, b]) = some (p ++ [a, b], []) := by
    rw [transmitLoop_succ, if_pos hlen, if_neg (by rw [hga]; exact ha)]
  unfold transmit
  rw [hresp, hloop]

/-- C3.  Whenever a (partial) response ends in `61 XX`, the Transport issues
GET RESPONSE `00 C0 00 00 XX`, strips the intermediate `61 XX` status word
and concatenates the new payload, repeating until a terminal status word;
composing one continuation with a terminal response yields a single logical
payload. -/
theorem transmit_continuation (fuel : Nat) (card : Card) (cmd d rest : Buf) (k : Nat)
    (hf : 2 ≤ fuel)
    (h1 : card cmd = d ++ [0x61, k])
    (h2 : card (getResponseCmd k) = rest)
    (h3 : 2 ≤ rest.length)
    (h4 : rest.getD (rest.length - 2) 0 ≠ 0x61) :
    transmit fuel card cmd = some (d ++ rest, [cmd, getResponseCmd k]) ∧
    ∀ (f : Nat) (data : Buf), 2 ≤ data.length → data.getD (data.length - 2) 0 = 0x61 →
      transmitLoop (f + 1) card data =
        Option.map (fun r => (r.1, getResponseCmd (data.getD (data.length - 1) 0) :: r.2))
          (transmitLoop f card
            (data.take (data.length - 2) ++ card (getResponseCmd (data.getD (data.length - 1) 0)))) := by
  have hstep : ∀ (f : Nat) (data : Buf), 2 ≤ data.length →
      data.getD (data.length - 2) 0 = 0x61 →
      transmitLoop (f + 1) card data =
        Option.map (fun r => (r.1, getResponseCmd (data.getD (data.length - 1) 0) :: r.2))
          (transmitLoop f card
            (data.take (data.length - 2) ++ card (getResponseCmd (data.getD (data.length - 1) 0)))) := by
    intro f data hl he
    rw [transmitLoop_succ, if_pos hl, if_pos he]
    cases htl : transmitLoop f card
        (data.take (data.length - 2) ++
          card (getResponseCmd (data.getD (data.length - 1) 0))) with
    | none => rfl
    | some r =>
      obtain ⟨rd, rt⟩ := r
      rfl
  refine ⟨?_, hstep⟩
  obtain ⟨f, rfl⟩ : ∃ f, fuel = f + 2 := ⟨fuel - 2, by omega⟩
  have hlen1 : (d ++ [0x61, k]).length ≥ 2 := by simp
  have hsub : (d ++ [0x61, k]).length - 2 = d.length := by simp
  have hga : (d ++ [0x61, k]).getD ((d ++ [0x61, k]).length - 2) 0 = 0x61 := by
    rw [hsub, getD_append_fst]
  have hgb : (d ++ [0x61, k]).getD ((d ++ [0x61, k]).length - 1) 0 = k := by
    have h1' : (d ++ [0x61, k]).length - 1 = d.length + 1 := by simp
    rw [h1', getD_append_snd]
  have htake : (d ++ [0x61, k]).take ((d ++ [0x61, k]).length - 2) = d := by
    rw [hsub, List.take_left]
  have hterm : transmitLoop (f + 1) card (d ++ rest) = some (d ++ rest, []) := by
    have hl2 : (d ++ rest).length ≥ 2 := by simp; omega
    have hg2 : (d ++ rest).getD ((d ++ rest).length - 2) 0 = rest.getD (rest.length - 2) 0 := by
      have hidx : (d ++ rest).length - 2 = d.length + (rest.length - 2) := by simp; omega
      rw [hidx, getD_append_right]
    unfold transmitLoop
    rw [if_pos hl2, if_neg (by rw [hg2]; exact h4)]
  unfold transmit
  rw [h1, hstep (f + 1) (d ++ [0x61, k]) hlen1 hga, hgb, htake, h2, hterm]
  rfl

/-- Sample card for the continuation scenario of the spec: the command
`00 01` answers `AA 61 05`, and GET RESPONSE yields five more bytes plus
`90 00`. -/
def c3Card : Card := fun c =>
  if c = [0x00, 0x01] then [0xAA, 0x61, 0x05]
  else if c = getResponseCmd 5 then [1, 2, 3, 4, 5, 0x90, 0x00]
  else [0x6f, 0x00]

theorem transmit_continuation_witness :
    c3Card [0x00, 0x01] = [0xAA] ++ [0x61, 5] ∧
    c3Card (getResponseCmd 5) = [1, 2, 3, 4, 5, 0x90, 0x00] ∧
    transmit 2 c3Card [0x00, 0x01] =
      some ([0xAA] ++ [1, 2, 3, 4, 5, 0x90, 0x00], [[0x00, 0x01], getResponseCmd 5]) :=
  ⟨by decide, by decide,
    (transmit_continuation 2 c3Card [0x00, 0x01] [0xAA] [1, 2, 3, 4, 5, 0x90, 0x00] 5
      (by decide) (by decide) (by decide) (by decide) (by decide)).1⟩

/-! ## PIN verification (claims C5, C9) -/

/-- C5.  `verifyPin` maps status `90 00` to success, `63 Cx` to a wrong-PIN
outcome reporting `x` (the low nibble of the second status byte) remaining
attempts, and `69 83` to the blocked outcome. -/
theorem verifyPin_status_mapping (fuel : Nat) (card : Card) (pin p : Buf) (a b : Nat)
    (hf : 1 ≤ fuel) (hresp : card (verifyPinCmd pin) = p ++ [a, b]) :
    (a = 0x90 → b = 0x00 → verifyPin fuel card pin = some (.ok (), [verifyPinCmd pin])) ∧
    (a = 0x63 → b &&& 0xf0 = 0xc0 →
      verifyPin fuel card pin =
        some (.err ("Wrong PIN. " ++ toString (b &&& 0x0f) ++ " attempts remaining."),
          [verifyPinCmd pin])) ∧
    (a = 0x69 → b = 0x83 →
      verifyPin fuel card pin = some (.err "PIN is blocked.", [verifyPinCmd pin])) := by
  refine ⟨?_, ?_, ?_⟩ <;> intro ha hb
  · subst ha; subst hb
    unfold verifyPin
    rw [transmit_terminal fuel card _ p 0x90 0x00 hf hresp (by decide)]
    simp [swOf_append_pair]
  · subst ha
    unfold verifyPin
    rw [transmit_terminal fuel card _ p 0x63 b hf hresp (by decide)]
    simp [swOf_append_pair, hb]
  · subst ha; subst hb
    unfold verifyPin
    rw [transmit_terminal fuel card _ p 0x69 0x83 hf hresp (by decide)]
    simp [swOf_append_pair]

/-- A card whose VERIFY response is `63 C3` (wrong PIN, three tries left). -/
def c5Card : Card := fun _ => [0x63, 0xc3]

theorem verifyPin_status_mapping_witness :
    c5Card (verifyPinCmd [1, 2, 3, 4, 5, 6]) = [] ++ [0x63, 0xc3] ∧
    verifyPin 1 c5Card [1, 2, 3, 4, 5, 6] =
      some (.err ("Wrong PIN. " ++ toString ((0xc3 : Nat) &&& 0x0f) ++ " attempts remaining."),
        [verifyPinCmd [1, 2, 3, 4, 5, 6]]) :=
  ⟨by decide,
    (verifyPin_status_mapping 1 c5Card [1, 2, 3, 4, 5, 6] [] 0x63 0xc3 (by decide)
      (by decide)).2.1 rfl (by decide)⟩

/-- C9.  A PIN longer than 8 bytes is silently truncated to its first
8 bytes: the VERIFY command equals the one for the truncated PIN, carries
exactly 8 bytes of PIN data (13 bytes total for every PIN), and the whole
operation behaves as if the truncated PIN had been supplied — no
over-length error exists. -/
theorem verifyPin_truncates (fuel : Nat) (card : Card) (pin : Buf) (h8 : 8 < pin.length) :
    verifyPinCmd pin = [0x00, 0x20, 0x00, 0x80, 0x08] ++ pin.take 8 ∧
    verifyPinCmd pin = verifyPinCmd (pin.take 8) ∧
    verifyPin fuel card pin = verifyPin fuel card (pin.take 8) ∧
    ∀ q : Buf, (verifyPinCmd q).length = 13 := by
  have h0 : 8 - pin.length = 0 := by omega
  have hcmd : verifyPinCmd pin = [0x00, 0x20, 0x00, 0x80, 0x08] ++ pin.take 8 := by
    unfold verifyPinCmd
    rw [h0]
    simp
  have hcmd2 : verifyPinCmd pin = verifyPinCmd (pin.take 8) := by
    unfold verifyPinCmd
    rw [h0, List.take_take]
    have hlen : (pin.take 8).length = 8 := by
      rw [List.length_take]
      omega
    rw [hlen]
    simp
  refine ⟨hcmd, hcmd2, ?_, ?_⟩
  · unfold verifyPin
    rw [hcmd2]
  · intro q
    unfold verifyPinCmd
    simp [List.length_take]
    omega

/-- A card accepting any VERIFY with `90 00`. -/
def sw9000Card : Card := fun _ => [0x90, 0x00]

theorem verifyPin_truncates_witness :
    8 < ([1, 2, 3, 4, 5, 6, 7, 8, 9, 10] : Buf).length ∧
    verifyPinCmd [1, 2, 3, 4, 5, 6, 7, 8, 9, 10] =
      [0x00, 0x20, 0x00, 0x80, 0x08] ++ ([1, 2, 3, 4, 5, 6, 7, 8, 9, 10] : Buf).take 8 ∧
    verifyPin 1 sw9000Card [1, 2, 3, 4, 5, 6, 7, 8, 9, 10] =
      verifyPin 1 sw9000Card (([1, 2, 3, 4, 5, 6, 7, 8, 9, 10] : Buf).take 8) :=
  ⟨by decide, (verifyPin_truncates 1 sw9000Card _ (by decide)).1,
    (verifyPin_truncates 1 sw9000Card _ (by decide)).2.2.1⟩

/-! ## signHash input validation (claim C4) -/

/-- C4.  Any input whose hex decode (after dropping a first `0x`) is not
exactly 32 bytes is rejected with the `InvalidInput` message, and no APDU is
sent (the transcript is empty), whatever the input's content. -/
theorem signHash_rejects (fuel : Nat) (card : Card) (hashHex : List Char)
    (h : (hexDecode (removeFirst0x hashHex)).length ≠ 32) :
    signHash fuel card hashHex =
      some (.err ("Hash must be 32 bytes, got " ++
        toString (hexDecode (removeFirst0x hashHex)).length), []) := by
  unfold signHash
  rw [if_pos h]

theorem signHash_rejects_witness :
    (hexDecode (removeFirst0x ['0', 'x', 'a', 'b'])).length ≠ 32 ∧
    signHash 1 sw9000Card ['0', 'x', 'a', 'b'] =
      some (.err ("Hash must be 32 bytes, got " ++
        toString (hexDecode (removeFirst0x ['0', 'x', 'a', 'b'])).length), []) :=
  ⟨by decide, signHash_rejects 1 sw9000Card _ (by decide)⟩

/-! ## Management-key authentication (claims C2, C10, C7) -/

/-- Evaluation of the management-key handshake when both exchanges succeed
with `90 00` and parse to 16-byte values: the outcome is decided purely by
the local comparison of the card's response with the locally encrypted
challenge. -/
theorem authMK_eval (fuel : Nat) (card : Card) (aes : AesOracle)
    (challenge p1 p2 w cresp : Buf)
    (hf : 1 ≤ fuel)
    (h1 : card witnessReqCmd = p1 ++ [0x90, 0x00])
    (h2 : parseTlvValue p1 0x80 = some w)
    (h3 : w.length = 16)
    (h4 : card (authRespCmd (aes.dec w) challenge) = p2 ++ [0x90, 0x00])
    (h5 : parseTlvValue p2 0x82 = some cresp)
    (h6 : cresp.length = 16) :
    authenticateManagementKey fuel card aes challenge =
      some (if cresp = aes.enc challenge then .ok ()
            else .err "Card response verification failed",
        [witnessReqCmd, authRespCmd (aes.dec w) challenge]) := by
  have t1 := transmit_terminal fuel card witnessReqCmd p1 0x90 0x00 hf h1 (by decide)
  have t2 := transmit_terminal fuel card (authRespCmd (aes.dec w) challenge) p2 0x90 0x00
    hf h4 (by decide)
  simp only [authenticateManagementKey, t1, t2, swOf_append_pair, bodyOf_append_pair, h2, h5]
  simp only [h3, h6]
  by_cases hc : cresp = aes.enc challenge <;> simp [hc]

/-- C2.  If the 16-byte card response differs from the locally encrypted
challenge in any way, the handshake fails with the authentication-failed
outcome, and `generateNewKey` — which authenticates first — never sends the
GENERATE ASYMMETRIC KEY PAIR command: its transcript is exactly the two
authentication APDUs. -/
theorem auth_mismatch_no_generate (fuel : Nat) (card : Card) (aes : AesOracle)
    (challenge p1 p2 w cresp : Buf) (slot : Nat)
    (hf : 1 ≤ fuel)
    (h1 : card witnessReqCmd = p1 ++ [0x90, 0x00])
    (h2 : parseTlvValue p1 0x80 = some w)
    (h3 : w.length = 16)
    (h4 : card (authRespCmd (aes.dec w) challenge) = p2 ++ [0x90, 0x00])
    (h5 : parseTlvValue p2 0x82 = some cresp)
    (h6 : cresp.length = 16)
    (h7 : cresp ≠ aes.enc challenge) :
    authenticateManagementKey fuel card aes challenge =
      some (.err "Card response verification failed",
        [witnessReqCmd, authRespCmd (aes.dec w) challenge]) ∧
    generateNewKey fuel card aes challenge slot =
      some (.err "Card response verification failed",
        [witnessReqCmd, authRespCmd (aes.dec w) challenge]) ∧
    generateKeyCmd slot ∉ [witnessReqCmd, authRespCmd (aes.dec w) challenge] := by
  have hauth := authMK_eval fuel card aes challenge p1 p2 w cresp hf h1 h2 h3 h4 h5 h6
  rw [if_neg h7] at hauth
  refine ⟨hauth, ?_, ?_⟩
  · unfold generateNewKey
    rw [hauth]
  · intro hmem
    rcases List.mem_cons.mp hmem with hw | hw
    · have hins : (0x47 : Nat) = 0x87 := congrArg (fun l => List.getD l 1 0) hw
      exact absurd hins (by decide)
    · rcases List.mem_cons.mp hw with hw' | hw'
      · have hins : (0x47 : Nat) = 0x87 := congrArg (fun l => List.getD l 1 0) hw'
        exact absurd hins (by decide)
      · simp at hw'

/-- A concrete mismatching scenario: the AES primitives and challenge are
fixed, and the card answers the handshake with a response that is not the
encrypted challenge. -/
def c2Aes : AesOracle := ⟨fun _ => List.replicate 16 0, fun _ => List.replicate 16 1⟩

def c2Challenge : Buf := List.replicate 16 2

def c2Witness16 : Buf := List.replicate 16 9

def c2Card : Card := fun c =>
  if c = witnessReqCmd then [0x7c, 0x12, 0x80, 0x10] ++ c2Witness16 ++ [0x90, 0x00]
  else if c = authRespCmd (c2Aes.dec c2Witness16) c2Challenge then
    [0x7c, 0x12, 0x82, 0x10] ++ List.replicate 16 3 ++ [0x90, 0x00]
  else [0x6f, 0x00]

theorem auth_mismatch_no_generate_witness :
    (List.replicate 16 3 : Buf) ≠ c2Aes.enc c2Challenge ∧
    authenticateManagementKey 1 c2Card c2Aes c2Challenge =
      some (.err "Card response verification failed",
        [witnessReqCmd, authRespCmd (c2Aes.dec c2Witness16) c2Challenge]) ∧
    generateNewKey 1 c2Card c2Aes c2Challenge 0x9a =
      some (.err "Card response verification failed",
        [witnessReqCmd, authRespCmd (c2Aes.dec c2Witness16) c2Challenge]) ∧
    generateKeyCmd 0x9a ∉ [witnessReqCmd, authRespCmd (c2Aes.dec c2Witness16) c2Challenge] := by
  have h := auth_mismatch_no_generate 1 c2Card c2Aes c2Challenge
    ([0x7c, 0x12, 0x80, 0x10] ++ c2Witness16) ([0x7c, 0x12, 0x82, 0x10] ++ List.replicate 16 3)
    c2Witness16 (List.replicate 16 3) 0x9a (by decide) (by decide) (by decide) (by decide)
    (by decide) (by decide) (by decide) (by decide)
  exact ⟨by decide, h.1, h.2.1, h.2.2⟩

/-! ## GET DATA / NO_KEY signal and generate-or-read (claims C7, C10) -/

theorem readPublicKey_nokey (fuel : Nat) (card : Card) (p : Buf)
    (hf : 1 ≤ fuel)
    (hresp : card (getDataCmd [0x5f, 0xc1, 0x05]) = p ++ [0x6a, 0x82]) :
    readPublicKey fuel card 0x9a = some (.err "NO_KEY", [getDataCmd [0x5f, 0xc1, 0x05]]) := by
  have hslot : getSlotObjectId 0x9a = some [0x5f, 0xc1, 0x05] := rfl
  have ht := transmit_terminal fuel card (getDataCmd [0x5f, 0xc1, 0x05]) p 0x6a 0x82 hf hresp
    (by decide)
  simp only [readPublicKey, hslot, ht, swOf_append_pair]
  simp

theorem readPublicKey_other_sw (fuel : Nat) (card : Card) (p : Buf) (a b : Nat)
    (hf : 1 ≤ fuel)
    (hresp : card (getDataCmd [0x5f, 0xc1, 0x05]) = p ++ [a, b])
    (hne61 : a ≠ 0x61)
    (hnk : ¬(a = 0x6a ∧ b = 0x82))
    (hns : ¬(a = 0x90 ∧ b = 0x00)) :
    readPublicKey fuel card 0x9a =
      some (.err ("Read public key failed: SW=" ++ bufToHex [a, b]),
        [getDataCmd [0x5f, 0xc1, 0x05]]) := by
  have hslot : getSlotObjectId 0x9a = some [0x5f, 0xc1, 0x05] := rfl
  have ht := transmit_terminal fuel card (getDataCmd [0x5f, 0xc1, 0x05]) p a b hf hresp hne61
  simp only [readPublicKey, hslot, ht, swOf_append_pair]
  rw [if_neg (by simpa using hnk), if_pos (by simpa using hns)]

/-- The error surfaced for an unexpected GET DATA status word is never the
`NO_KEY` domain signal. -/
theorem read_err_ne_nokey (s : String) : "Read public key failed: SW=" ++ s ≠ "NO_KEY" := by
  intro h
  have hl := congrArg String.length h
  rw [String.length_append] at hl
  have h27 : ("Read public key failed: SW=" : String).length = 27 := by decide
  have h6 : ("NO_KEY" : String).length = 6 := by decide
  omega

/-- C7.  `readPublicKey` maps `6A 82` to the `NO_KEY` signal (not a raw
status-word error), and maps any other non-success status word to an error
carrying the raw SW; `generateP256Key` generates precisely on the `NO_KEY`
signal (forwarding `generateNewKey`'s outcome) and forwards any other read
error untouched, sending nothing beyond the initial GET DATA. -/
theorem nokey_signal_drives_generate (fuel : Nat) (card : Card) (aes : AesOracle)
    (challenge p : Buf) (a b : Nat) (storeOk : Bool)
    (hf : 1 ≤ fuel)
    (hresp : card (getDataCmd [0x5f, 0xc1, 0x05]) = p ++ [a, b]) :
    (a = 0x6a → b = 0x82 →
      readPublicKey fuel card 0x9a = some (.err "NO_KEY", [getDataCmd [0x5f, 0xc1, 0x05]]) ∧
      ∀ (g : YkResult PublicKeyResult) (t2 : List Buf),
        generateNewKey fuel card aes challenge 0x9a = some (g, t2) →
        generateP256Key fuel card aes challenge storeOk =
          some (g, getDataCmd [0x5f, 0xc1, 0x05] :: t2)) ∧
    (a ≠ 0x61 → ¬(a = 0x6a ∧ b = 0x82) → ¬(a = 0x90 ∧ b = 0x00) →
      readPublicKey fuel card 0x9a =
        some (.err ("Read public key failed: SW=" ++ bufToHex [a, b]),
          [getDataCmd [0x5f, 0xc1, 0x05]]) ∧
      generateP256Key fuel card aes challenge storeOk =
        some (.err ("Read public key failed: SW=" ++ bufToHex [a, b]),
          [getDataCmd [0x5f, 0xc1, 0x05]])) := by
  constructor
  · intro ha hb
    subst ha; subst hb
    have hread := readPublicKey_nokey fuel card p hf hresp
    refine ⟨hread, ?_⟩
    intro g t2 hgen
    unfold generateP256Key
    rw [hread]
    simp only [reduceIte]
    rw [hgen]
    cases g with
    | ok pubKey => rfl
    | err e2 => rfl
  · intro h61 hnk hns
    have hread := readPublicKey_other_sw fuel card p a b hf hresp h61 hnk hns
    refine ⟨hread, ?_⟩
    unfold generateP256Key
    rw [hread]
    simp [read_err_ne_nokey]

/-- A 65-byte uncompressed point used by the concrete scenarios. -/
def c7Point : Buf := 0x04 :: List.replicate 64 5

/-- A card with an empty slot: GET DATA answers `6A 82`, the management-key
handshake succeeds (the card response equals the encrypted challenge), and
GENERATE returns a `7F49`/`86` template with `c7Point`. -/
def c7Card : Card := fun c =>
  if c = getDataCmd [0x5f, 0xc1, 0x05] then [0x6a, 0x82]
  else if c = witnessReqCmd then [0x7c, 0x12, 0x80, 0x10] ++ c2Witness16 ++ [0x90, 0x00]
  else if c = authRespCmd (c2Aes.dec c2Witness16) c2Challenge then
    [0x7c, 0x12, 0x82, 0x10] ++ c2Aes.enc c2Challenge ++ [0x90, 0x00]
  else if c = generateKeyCmd 0x9a then [0x7f, 0x49, 0x43, 0x86, 0x41] ++ c7Point ++ [0x90, 0x00]
  else [0x6f, 0x00]

theorem nokey_signal_drives_generate_witness :
    c7Card (getDataCmd [0x5f, 0xc1, 0x05]) = [] ++ [0x6a, 0x82] ∧
    readPublicKey 1 c7Card 0x9a = some (.err "NO_KEY", [getDataCmd [0x5f, 0xc1, 0x05]]) ∧
    generateP256Key 1 c7Card c2Aes c2Challenge true =
      some (.ok ⟨c7Point, (c7Point.drop 1).take 32, (c7Point.drop 33).take 32⟩,
        getDataCmd [0x5f, 0xc1, 0x05] ::
          [witnessReqCmd, authRespCmd (c2Aes.dec c2Witness16) c2Challenge,
            generateKeyCmd 0x9a]) := by
  have h := (nokey_signal_drives_generate 1 c7Card c2Aes c2Challenge [] 0x6a 0x82 true
    (by decide) (by decide)).1 rfl rfl
  exact ⟨by decide, h.1,
    h.2 (.ok ⟨c7Point, (c7Point.drop 1).take 32, (c7Point.drop 33).take 32⟩)
      [witnessReqCmd, authRespCmd (c2Aes.dec c2Witness16) c2Challenge, generateKeyCmd 0x9a]
      (by decide)⟩

/-- C10.  When the slot is empty, key generation succeeds, and the
certificate-storage step fails (`storeOk = false`), `generateP256Key` still
returns the generated public key as a success — the storage failure is only
logged, never surfaced. -/
theorem store_failure_still_success (fuel : Nat) (card : Card) (aes : AesOracle)
    (challenge p0 p1 p2 p3 w : Buf) (pk : PublicKeyResult)
    (hf : 1 ≤ fuel)
    (hread : card (getDataCmd [0x5f, 0xc1, 0x05]) = p0 ++ [0x6a, 0x82])
    (h1 : card witnessReqCmd = p1 ++ [0x90, 0x00])
    (h2 : parseTlvValue p1 0x80 = some w)
    (h3 : w.length = 16)
    (h4 : card (authRespCmd (aes.dec w) challenge) = p2 ++ [0x90, 0x00])
    (h5 : parseTlvValue p2 0x82 = some (aes.enc challenge))
    (h6 : (aes.enc challenge).length = 16)
    (h7 : card (generateKeyCmd 0x9a) = p3 ++ [0x90, 0x00])
    (h8 : parsePublicKeyResponse p3 = some pk) :
    generateP256Key fuel card aes challenge false =
      some (.ok pk,
        [getDataCmd [0x5f, 0xc1, 0x05], witnessReqCmd, authRespCmd (aes.dec w) challenge,
          generateKeyCmd 0x9a]) := by
  have hauth := authMK_eval fuel card aes challenge p1 p2 w (aes.enc challenge)
    hf h1 h2 h3 h4 h5 h6
  rw [if_pos rfl] at hauth
  have htg := transmit_terminal fuel card (generateKeyCmd 0x9a) p3 0x90 0x00 hf h7 (by decide)
  have hgen : generateNewKey fuel card aes challenge 0x9a =
      some (.ok pk,
        [witnessReqCmd, authRespCmd (aes.dec w) challenge, generateKeyCmd 0x9a]) := by
    simp only [generateNewKey, hauth, htg, swOf_append_pair, bodyOf_append_pair, h8]
    simp
  have hread' := readPublicKey_nokey fuel card p0 hf hread
  unfold generateP256Key
  rw [hread']
  simp only [reduceIte]
  rw [hgen]
  simp

theorem store_failure_still_success_witness :
    generateP256Key 1 c7Card c2Aes c2Challenge false =
      some (.ok ⟨c7Point, (c7Point.drop 1).take 32, (c7Point.drop 33).take 32⟩,
        [getDataCmd [0x5f, 0xc1, 0x05], witnessReqCmd,
          authRespCmd (c2Aes.dec c2Witness16) c2Challenge, generateKeyCmd 0x9a]) :=
  store_failure_still_success 1 c7Card c2Aes c2Challenge [] ([0x7c, 0x12, 0x80, 0x10] ++ c2Witness16)
    ([0x7c, 0x12, 0x82, 0x10] ++ c2Aes.enc c2Challenge) ([0x7f, 0x49, 0x43, 0x86, 0x41] ++ c7Point)
    c2Witness16 ⟨c7Point, (c7Point.drop 1).take 32, (c7Point.drop 33).take 32⟩
    (by decide) (by decide) (by decide) (by decide) (by decide) (by decide) (by decide)
    (by decide) (by decide) (by decide)

/-! ## SubjectPublicKeyInfo round trip (claim C6) -/

/-- C6.  For every 65-byte uncompressed point `04 ‖ x ‖ y`,
`buildSubjectPublicKeyInfo` followed by the certificate parser's primary
strategy (EC OID scan, then 66-byte BIT STRING search) recovers the point,
and in particular the original 64-byte `x ‖ y`, exactly. -/
theorem spki_roundtrip (pt : Buf) (hlen : pt.length = 65) (h0 : pt.get? 0 = some 0x04) :
    parsePublicKeyFromCert (buildSubjectPublicKeyInfo pt) =
      some ⟨pt, (pt.drop 1).take 32, (pt.drop 33).take 32⟩ := by
  obtain ⟨hd, tl, rfl⟩ : ∃ hd tl, pt = hd :: tl := by
    cases pt with
    | nil => simp at h0
    | cons hd tl => exact ⟨hd, tl, rfl⟩
  obtain rfl : hd = 4 := by simpa using h0
  have htl : tl.length = 64 := by simpa using hlen
  have hbuild : buildSubjectPublicKeyInfo (4 :: tl) =
      [0x30, 0x59] ++ algIdEC ++ [0x03, 0x42, 0x00] ++ (4 :: tl) := by
    unfold buildSubjectPublicKeyInfo encodeLength
    simp [algIdEC, htl]
  rw [hbuild]
  have hlen91 : ([0x30, 0x59] ++ algIdEC ++ [0x03, 0x42, 0x00] ++ (4 :: tl)).length = 91 := by
    simp [algIdEC, htl]
  have hfind1 : firstIdxFrom 0 (91 - ecPubKeyOid.length)
      (matchesAt ([0x30, 0x59] ++ algIdEC ++ [0x03, 0x42, 0x00] ++ (4 :: tl)) ecPubKeyOid) =
      some 4 := rfl
  have hfind2 : firstIdxFrom (4 + ecPubKeyOid.length) (91 - 67)
      (bitStringHit ([0x30, 0x59] ++ algIdEC ++ [0x03, 0x42, 0x00] ++ (4 :: tl))) =
      some 23 := rfl
  have hbs : bsResultAt ([0x30, 0x59] ++ algIdEC ++ [0x03, 0x42, 0x00] ++ (4 :: tl)) 23 =
      ⟨(4 :: tl).take 65, tl.take 32, (tl.drop 32).take 32⟩ := rfl
  have h65 : (4 :: tl).take 65 = 4 :: tl :=
    List.take_of_length_le (by simp [htl])
  unfold parsePublicKeyFromCert
  rw [hlen91, hfind1]
  dsimp only
  rw [hfind2]
  dsimp only
  rw [hbs, h65]
  rfl

theorem spki_roundtrip_witness :
    (0x04 :: List.replicate 64 7 : Buf).length = 65 ∧
    (0x04 :: List.replicate 64 7 : Buf).get? 0 = some 0x04 ∧
    parsePublicKeyFromCert (buildSubjectPublicKeyInfo (0x04 :: List.replicate 64 7)) =
      some ⟨0x04 :: List.replicate 64 7,
        ((0x04 :: List.replicate 64 7 : Buf).drop 1).take 32,
        ((0x04 :: List.replicate 64 7 : Buf).drop 33).take 32⟩ :=
  ⟨by decide, by decide, spki_roundtrip _ (by decide) (by decide)⟩

/-! ## Parser robustness on short blobs (claim C8) -/

theorem parseLength_oob (data : Buf) (offset : Nat) (h : data.length ≤ offset) :
    parseLength data offset = none := by
  unfold parseLength
  rw [List.get?_eq_none.mpr h]

theorem parseLengthBytes_oob (data : Buf) (offset : Nat) (h : data.length ≤ offset) :
    parseLengthBytes data offset = none := by
  unfold parseLengthBytes
  rw [List.get?_eq_none.mpr h]

theorem parseLengthBytes_values (data : Buf) (offset k : Nat)
    (h : parseLengthBytes data offset = some k) : k = 1 ∨ k = 2 ∨ k = 3 := by
  unfold parseLengthBytes at h
  cases hb : data.get? offset with
  | none => rw [hb] at h; exact Option.noConfusion h
  | some b =>
    rw [hb] at h
    dsimp only at h
    split_ifs at h <;> simp_all

theorem parseSignatureResponse_short (blob : Buf) (h : blob.length < 4) :
    parseSignatureResponse blob = none := by
  unfold parseSignatureResponse
  by_cases h0 : blob.get? 0 ≠ some 0x7c
  · rw [if_pos h0]
  rw [if_neg h0]
  rcases hlb : parseLengthBytes blob 1 with _ | lb
  · rfl
  dsimp only
  by_cases h82 : blob.get? (1 + lb) ≠ some 0x82
  · rw [if_pos h82]
  rw [if_neg h82]
  rw [not_not] at h82
  have hlt : 1 + lb < blob.length := by
    rcases List.get?_eq_some.mp h82 with ⟨hl, _⟩
    exact hl
  have hvals := parseLengthBytes_values blob 1 lb hlb
  have hoob : blob.length ≤ 1 + lb + 1 := by omega
  rw [parseLength_oob blob (1 + lb + 1) hoob, parseLengthBytes_oob blob (1 + lb + 1) hoob]

theorem parsePublicKeyResponse_short (blob : Buf) (h : blob.length < 3) :
    parsePublicKeyResponse blob = none := by
  unfold parsePublicKeyResponse
  by_cases h0 : blob.get? 0 ≠ some 0x7f ∨ blob.get? 1 ≠ some 0x49
  · rw [if_pos h0]
  rw [if_neg h0]
  push_neg at h0
  have hlt : 1 < blob.length := by
    rcases List.get?_eq_some.mp h0.2 with ⟨hl, _⟩
    exact hl
  rw [parseLengthBytes_oob blob 2 (by omega)]

theorem parsePublicKeyFallback_short (blob : Buf) (h : blob.length ≤ 67) :
    parsePublicKeyFallback blob = none := by
  unfold parsePublicKeyFallback
  rw [Nat.sub_eq_zero_of_le h]
  rfl

theorem parsePublicKeyFromCert_short (blob : Buf) (h : blob.length ≤ 67) :
    parsePublicKeyFromCert blob = none := by
  unfold parsePublicKeyFromCert
  cases hf1 : firstIdxFrom 0 (blob.length - ecPubKeyOid.length) (matchesAt blob ecPubKeyOid) with
  | none => exact parsePublicKeyFallback_short blob h
  | some j =>
    have hf2 : firstIdxFrom (j + ecPubKeyOid.length) (blob.length - 67) (bitStringHit blob)
        = none := by
      unfold firstIdxFrom
      rw [Nat.sub_eq_zero_of_le h, Nat.zero_sub]
      rfl
    dsimp only
    rw [hf2]
    exact parsePublicKeyFallback_short blob h

theorem parsePublicKeyResponse_wellformed (blob : Buf) (pk : PublicKeyResult)
    (h : parsePublicKeyResponse blob = some pk) :
    pk.publicKey.length = 65 ∧ pk.publicKey.get? 0 = some 0x04 ∧
    pk.x.length = 32 ∧ pk.y.length = 32 := by
  unfold parsePublicKeyResponse at h
  split at h
  all_goals try exact Option.noConfusion h
  split at h
  all_goals try exact Option.noConfusion h
  split at h
  all_goals try exact Option.noConfusion h
  split at h
  all_goals try exact Option.noConfusion h
  split at h
  all_goals try exact Option.noConfusion h
  rename_i hcond
  rw [Option.some_inj] at h
  subst h
  refine ⟨hcond.1, hcond.2, ?_, ?_⟩ <;>
    · simp only [List.length_take, List.length_drop, hcond.1]
      omega

/-- C8 (amended).  Each parser returns `none` for blobs too short to contain
the fixed header its structure requires (4 bytes for the signature response,
3 for the key-generation response, 68 for the certificate parser), and the
TLV length decoder errors on any out-of-range offset.  Declared value
lengths exceeding the available bytes are clamped rather than read out of
bounds — so such a blob can still parse (see the counterexample), but every
successful key-generation parse is well-formed (65-byte point starting
`0x04`, 32-byte coordinates). -/
theorem parsers_short_blob (blob : Buf) :
    (blob.length < 4 → parseSignatureResponse blob = none) ∧
    (blob.length < 3 → parsePublicKeyResponse blob = none) ∧
    (blob.length ≤ 67 → parsePublicKeyFromCert blob = none) ∧
    (∀ offset : Nat, blob.length ≤ offset →
      parseLength blob offset = none ∧ parseLengthBytes blob offset = none) ∧
    (∀ pk : PublicKeyResult, parsePublicKeyResponse blob = some pk →
      pk.publicKey.length = 65 ∧ pk.publicKey.get? 0 = some 0x04 ∧
      pk.x.length = 32 ∧ pk.y.length = 32) :=
  ⟨parseSignatureResponse_short blob, parsePublicKeyResponse_short blob,
    parsePublicKeyFromCert_short blob,
    fun offset ho => ⟨parseLength_oob blob offset ho, parseLengthBytes_oob blob offset ho⟩,
    fun pk => parsePublicKeyResponse_wellformed blob pk⟩

/-- A signature-response blob whose declared lengths (`sigLen = 0x22`,
SEQUENCE length `0x20`) exceed the available bytes. -/
def c8ShortBlob : Buf := [0x7c, 0x24, 0x82, 0x22, 0x30, 0x20, 0x02, 0x01, 0x01, 0x02, 0x01, 0x02]

/-- C8 counterexample: a blob shorter than the field lengths its structure
declares on which `parseSignatureResponse` nevertheless returns a
successful parse (slices are clamped and short integers zero-padded), not
`ParseError`/`null`. -/
theorem parsers_short_blob_counterexample :
    c8ShortBlob.length < 4 + c8ShortBlob.getD 3 0 ∧
    parseSignatureResponse c8ShortBlob =
      some ⟨[0x30, 0x20, 0x02, 0x01, 0x01, 0x02, 0x01, 0x02],
        List.replicate 31 0 ++ [1], List.replicate 31 0 ++ [2]⟩ :=
  ⟨by decide, by decide⟩

theorem parsers_short_blob_witness :
    (([0x7c, 0x05] : Buf).length < 4 ∧ parseSignatureResponse [0x7c, 0x05] = none) ∧
    (([0x7f] : Buf).length < 3 ∧ parsePublicKeyResponse [0x7f] = none) ∧
    (([0x03, 0x42, 0x00, 0x04] : Buf).length ≤ 67 ∧
      parsePublicKeyFromCert [0x03, 0x42, 0x00, 0x04] = none) ∧
    (([0x81] : Buf).length ≤ 1 ∧ parseLength [0x81] 1 = none ∧ parseLengthBytes [0x81] 1 = none) :=
  ⟨⟨by decide, (parsers_short_blob [0x7c, 0x05]).1 (by decide)⟩,
   ⟨by decide, (parsers_short_blob [0x7f]).2.1 (by decide)⟩,
   ⟨by decide, (parsers_short_blob [0x03, 0x42, 0x00, 0x04]).2.2.1 (by decide)⟩,
   ⟨by decide, (parsers_short_blob [0x81]).2.2.2.1 1 (by decide)⟩⟩

end SafeYubikey
